import Mathlib

/-!
Verification development for the pdf_translate_vue repository.

Each definition in this file is a shallow embedding of a function of the
repository source. Python lists become Lean lists, Python floats arising
from exact decimal arithmetic become rationals, Python dicts with a fixed
field set become structures, and fallible code returns Except or Option.
External effects (the S3 client, the OpenAI API, ReportLab text
measurement, the Celery result backend) are modelled as explicit
parameters describing their observable outcomes.
-/

namespace PdfTranslate

/-! ## Language and font tables

Embedded from src/worker/src/domain/translator/processor.py
(get_font_for_language) and src/shared/config/constants.py
(SUPPORTED_LANGUAGES).  The processor duplicates the same cjk_fonts
table that also appears in src/worker/src/domain/translator/utils.py. -/

/-- The cjk_fonts dict of get_font_for_language. -/
def cjk_fonts : List (String × String) :=
  [("jp", "HeiseiMin-W3"), ("kr", "HYSMyeongJo-Medium"), ("cn", "STSong-Light")]

/-- src/worker/src/domain/translator/processor.py, get_font_for_language:
returns the CID font for the codes jp, kr, cn and OpenSans otherwise. -/
def get_font_for_language (target_language : String) : String :=
  match cjk_fonts.lookup target_language with
  | some f => f
  | none => "OpenSans"

/-- Keys of the SUPPORTED_LANGUAGES dict of src/shared/config/constants.py,
in source order. -/
def SUPPORTED_LANGUAGES_keys : List String :=
  ["en", "es", "fr", "de", "it", "pt", "nl", "pl", "ru", "sv", "da", "no",
   "fi", "hu", "cs", "sk", "sl", "hr", "bg", "ro", "el",
   "zh", "zh-tw", "ja", "ko", "th", "vi", "hi", "bn", "ta", "te", "ml",
   "kn", "gu", "pa", "ur",
   "ar", "he", "fa", "tr", "sw"]

/-! ## Path safety helpers

Embedded from src/shared/utils/file_utils.py.  A filesystem path is
modelled as its list of components below the root; pathlib's resolve
collapses dot and dot-dot components, and Python's str.startswith is
modelled as a character-list prefix test on the rendered path string. -/

/-- src/shared/utils/file_utils.py, clean_filename: spaces become
underscores, every character that is not alphanumeric or one of . _ -
is dropped, and an empty result becomes "file".  (Python isalnum on the
ASCII inputs of interest coincides with Char.isAlphanum.) -/
def clean_filename (filename : String) : String :=
  let replaced := filename.toList.map (fun c => if c = ' ' then '_' else c)
  let cleaned := String.mk (replaced.filter
    (fun c => c.isAlphanum || c = '.' || c = '_' || c = '-'))
  if cleaned = "" then "file" else cleaned

/-- Path.resolve on an absolute path: dot components vanish, dot-dot pops
the previous component (and stays at the root when there is none).
Pathlib components are never the empty string; an empty component is
normalised away like a dot. -/
def resolve_components (comps : List String) : List String :=
  comps.foldl
    (fun acc c =>
      if c = "." ∨ c = "" then acc
      else if c = ".." then acc.dropLast
      else acc ++ [c])
    []

/-- str() of an absolute pathlib path with the given components. -/
def path_chars (comps : List String) : List Char :=
  if comps = [] then ['/'] else comps.flatMap (fun c => '/' :: c.toList)

/-- Python str.startswith, on strings rendered as character lists. -/
def py_startswith (s pre : List Char) : Bool :=
  pre.isPrefixOf s

/-- src/shared/utils/file_utils.py, get_safe_path: clean the filename,
join it to the base, resolve, and reject the result when the resolved
string does not start with the resolved base string.  The OSError branch
of the source wraps filesystem failures of resolve, which the pure
component model cannot exhibit. -/
def get_safe_path (base_path : List String) (filename : String) :
    Except String (List String) :=
  let safe_filename := clean_filename filename
  let resolved_path := resolve_components (base_path ++ [safe_filename])
  let base_resolved := resolve_components base_path
  if py_startswith (path_chars resolved_path) (path_chars base_resolved)
  then .ok resolved_path
  else .error "PATH_TRAVERSAL_DETECTED"

/-! ## Dynamic font-size fitting

Embedded from src/worker/src/domain/translator/utils.py,
adjust_paragraph_font_size.  ReportLab's Paragraph.wrap is external; for
a fixed text and available width the measured height depends only on the
font size (the leading is always reset to 1.2 times the size alongside),
so the measurement is modelled as an abstract function hgt from font size
to wrapped height.  Sizes are rationals, since the callers pass float
sizes such as max(8, height * 0.8) while the loops step by exactly 1. -/

/-- The first while loop: shrink by 1 while the wrapped height exceeds
the available height and the size is above the floor. -/
def shrink_loop (hgt : ℚ → ℚ) (available_height min_font_size : ℚ) (s : ℚ) : ℚ :=
  if h : hgt s > available_height ∧ s > min_font_size then
    shrink_loop hgt available_height min_font_size (s - 1)
  else s
termination_by (⌈s - min_font_size⌉).toNat
decreasing_by
  have h1 : (0 : ℚ) < s - min_font_size := by linarith [h.2]
  have h2 : (1 : ℤ) ≤ ⌈s - min_font_size⌉ := by
    exact_mod_cast Int.one_le_ceil_iff.mpr h1
  have h3 : ⌈s - 1 - min_font_size⌉ = ⌈s - min_font_size⌉ - 1 := by
    rw [show s - 1 - min_font_size = s - min_font_size - 1 by ring]
    exact Int.ceil_sub_one _
  omega

/-- The second while loop: grow by 1 while the wrapped height is below
the available height and the size is below the ceiling; if the grown
size overshoots the available height, back off one step and stop. -/
def grow_loop (hgt : ℚ → ℚ) (available_height max_font_size : ℚ) (s : ℚ) : ℚ :=
  if h : hgt s < available_height ∧ s < max_font_size then
    if hgt (s + 1) > available_height then s
    else grow_loop hgt available_height max_font_size (s + 1)
  else s
termination_by (⌈max_font_size - s⌉).toNat
decreasing_by
  have h1 : (0 : ℚ) < max_font_size - s := by linarith [h.2]
  have h2 : (1 : ℤ) ≤ ⌈max_font_size - s⌉ := by
    exact_mod_cast Int.one_le_ceil_iff.mpr h1
  have h3 : ⌈max_font_size - (s + 1)⌉ = ⌈max_font_size - s⌉ - 1 := by
    rw [show max_font_size - (s + 1) = max_font_size - s - 1 by ring]
    exact Int.ceil_sub_one _
  omega

/-- src/worker/src/domain/translator/utils.py, adjust_paragraph_font_size:
wrap at the incoming style size, run the shrink loop, then the grow loop,
and return the paragraph at the final size. -/
def adjust_paragraph_font_size (hgt : ℚ → ℚ)
    (available_height : ℚ) (min_font_size max_font_size : ℚ) (s : ℚ) : ℚ :=
  grow_loop hgt available_height max_font_size
    (shrink_loop hgt available_height min_font_size s)

/-- The initial style size used by build_translated_pdf in
src/worker/tasks.py: fontSize = max(8, pos height * 0.8). -/
def build_initial_font_size (box_height : ℚ) : ℚ :=
  max 8 (box_height * (4 / 5))

/-- The shrink loop with an explicit iteration budget; none means the
budget was exhausted with the loop condition still true. -/
def shrink_fuel (hgt : ℚ → ℚ) (available_height min_font_size : ℚ) :
    Nat → ℚ → Option ℚ
  | 0, s =>
      if hgt s > available_height ∧ s > min_font_size then none else some s
  | n + 1, s =>
      if hgt s > available_height ∧ s > min_font_size then
        shrink_fuel hgt available_height min_font_size n (s - 1)
      else some s

/-- The grow loop with an explicit iteration budget. -/
def grow_fuel (hgt : ℚ → ℚ) (available_height max_font_size : ℚ) :
    Nat → ℚ → Option ℚ
  | 0, s =>
      if hgt s < available_height ∧ s < max_font_size then none else some s
  | n + 1, s =>
      if hgt s < available_height ∧ s < max_font_size then
        if hgt (s + 1) > available_height then some s
        else grow_fuel hgt available_height max_font_size n (s + 1)
      else some s

/-! ## Pixel/point geometry

Embedded from src/worker/src/domain/translator/pdf_utils.py
(get_page_dimensions_from_image) and the frame computation of
src/worker/src/domain/translator/processor.py, process_text_regions. -/

/-- Page width in points derived from the raster width and the DPI. -/
def page_width_pts (img_width_px : ℚ) (dpi : ℚ) : ℚ :=
  img_width_px * 72 / dpi

/-- Page height in points derived from the raster height and the DPI. -/
def page_height_pts (img_height_px : ℚ) (dpi : ℚ) : ℚ :=
  img_height_px * 72 / dpi

/-- A point-space frame for one region: x, y, width, height. -/
structure Frame where
  x : ℚ
  y : ℚ
  width : ℚ
  height : ℚ
deriving DecidableEq, Repr

/-- process_text_regions, the frame computation: convert a pixel box
(x1, y1, x2, y2) with origin at the top-left of the raster into a PDF
frame with origin at the bottom-left of the page. -/
def pixel_box_to_frame (page_width page_height img_width img_height : ℚ)
    (x1 y1 x2 y2 : ℚ) : Frame :=
  { x := x1 * (page_width / img_width)
    y := (img_height - y2) * (page_height / img_height)
    width := (x2 - x1) * (page_width / img_width)
    height := (y2 - y1) * (page_height / img_height) }

/-- Modelled from the spec: the inverse conversion of the section 4.4
formulas, used by the geometry round-trip property.  This definition
follows the specification's words, not any source function: the source
never converts back from points to pixels. -/
def frame_to_pixel_box (page_width page_height img_width img_height : ℚ)
    (f : Frame) : ℚ × ℚ × ℚ × ℚ :=
  let x1 := f.x / (page_width / img_width)
  let y2 := img_height - f.y / (page_height / img_height)
  let x2 := x1 + f.width / (page_width / img_width)
  let y1 := y2 - f.height / (page_height / img_height)
  (x1, y1, x2, y2)

/-! ## Translation length invariant

Two translation call paths are embedded.  Generation 2:
src/worker/src/domain/translator/translator.py, translate_text_async.
Generation 1: src/worker/core/translation/models/openai_client.py,
OpenAITranslationClient.translate_texts, and
src/worker/core/translation/translator.py,
TranslationEngine._translate_batch and _translate_individually.
The outcome of one upstream chat-completion call is modelled as data. -/

/-- Outcome of one structured-output API call as seen by
translate_text_async: the three typed API errors are re-raised, a parsed
response carries its translations array, and any other exception (parse
failure, or the explicit count-mismatch ValueError) reaches the generic
handler. -/
inductive ApiOutcome where
  | api_error
  | parsed (translations : List String)
  | other_exc
deriving DecidableEq, Repr

/-- translate_text_async: empty input short-circuits to an empty list; a
typed API error propagates; a parsed response is rejected (ValueError,
caught by the generic handler, which returns the original texts) when
its length mismatches; any other failure also returns the originals. -/
def translate_text_async (texts : List String) (outcome : ApiOutcome) :
    Except Unit (List String) :=
  if texts.isEmpty then .ok []
  else
    match outcome with
    | .api_error => .error ()
    | .other_exc => .ok texts
    | .parsed ts =>
        if ts.length ≠ texts.length then .ok texts else .ok ts

/-- Outcome of one chat-completion call as seen by the Generation 1
client, which catches every exception itself. -/
inductive RawApi where
  | raise_exc
  | parsed (translations : List String)
deriving DecidableEq, Repr

/-- OpenAITranslationClient._call_translation_api: any exception or an
empty translations array becomes an error TaskResult. -/
def call_translation_api (raw : RawApi) : Option (List String) :=
  match raw with
  | .raise_exc => none
  | .parsed ts => if ts.isEmpty then none else some ts

/-- OpenAITranslationClient.translate_texts: empty input succeeds with an
empty list; otherwise the parsed array is padded with the corresponding
original texts while it is too short and truncated to the input length. -/
def client_translate_texts (texts : List String) (raw : RawApi) :
    Option (List String) :=
  if texts.isEmpty then some []
  else
    match call_translation_api raw with
    | none => none
    | some ts => some ((ts ++ texts.drop ts.length).take texts.length)

/-- TranslationEngine._translate_individually: one client call per text;
a failed or empty result keeps the original text, so this fallback never
fails as a whole. -/
def translate_individually (raw_of_text : String → RawApi)
    (texts : List String) : List String :=
  texts.map (fun t =>
    match client_translate_texts [t] (raw_of_text t) with
    | some (t' :: _) => t'
    | some [] => t
    | none => t)

/-- TranslationEngine._translate_batch: chunk the input into sub-batches
of 10, translate each chunk with one client call, and fall back to
per-text translation when the chunk call fails.  The surrounding
exception handler of the source is unreachable here because the client
catches its own exceptions, so the batch path always produces a list. -/
def translate_batch (raw_of_chunk : List String → RawApi)
    (raw_of_text : String → RawApi) (texts : List String) : List String :=
  if h : texts.isEmpty then []
  else
    let chunk := texts.take 10
    let chunk_result :=
      match client_translate_texts chunk (raw_of_chunk chunk) with
      | some ts => ts
      | none => translate_individually raw_of_text chunk
    chunk_result ++ translate_batch raw_of_chunk raw_of_text (texts.drop 10)
termination_by texts.length
decreasing_by
  have : texts ≠ [] := by simpa using h
  have hlen : 0 < texts.length := List.length_pos.mpr this
  simp only [List.length_drop]
  omega

/-! ## Translation quality scoring

Embedded from src/worker/core/translation/translator.py,
TranslationEngine.validate_translation_quality.  Python str.strip is
modelled by py_strip below (surrounding whitespace removal on the
character list). -/

/-- The metrics dict assembled by validate_translation_quality.  The
suspicious_translations list is kept as its length, which is all the
score computation reads. -/
structure QualityMetrics where
  total_pairs : Nat
  empty_translations : Nat
  identical_translations : Nat
  suspicious_count : Nat
  quality_score : ℚ
deriving DecidableEq, Repr

/-- Python str.strip: drop surrounding whitespace characters. -/
def py_strip (s : String) : String :=
  String.mk
    (((s.toList.dropWhile Char.isWhitespace).reverse.dropWhile
      Char.isWhitespace).reverse)

/-- One loop iteration: empty translations and identical pairs each bump
their counter and append one suspicious entry; independently, any pair
with a nonempty original whose length ratio leaves [0.3, 3.0] appends
another suspicious entry. -/
def pair_metrics (original translated : String) : Nat × Nat × Nat :=
  let e : Nat := if py_strip translated = "" then 1 else 0
  let i : Nat :=
    if py_strip translated ≠ "" ∧ py_strip original = py_strip translated
    then 1 else 0
  let r : Nat :=
    if 0 < original.length ∧
        ((translated.length : ℚ) / (original.length : ℚ) < 3 / 10 ∨
         (translated.length : ℚ) / (original.length : ℚ) > 3)
    then 1 else 0
  (e, i, e + i + r)

/-- validate_translation_quality: a length mismatch is an error result;
with both lists empty the final score division raises ZeroDivisionError,
which the surrounding handler converts to an error result; otherwise the
metrics are accumulated pairwise and the score is
max(0, 1 - issues_count / total_pairs) with
issues_count = empty + identical + suspicious length. -/
def validate_translation_quality (original_texts translated_texts : List String) :
    Except String QualityMetrics :=
  if original_texts.length ≠ translated_texts.length then
    .error "TRANSLATION_COUNT_MISMATCH"
  else if original_texts.length = 0 then
    .error "QUALITY_VALIDATION_FAILED"
  else
    let pairs := original_texts.zip translated_texts
    let acc := pairs.foldl
      (fun (m : Nat × Nat × Nat) p =>
        let pm := pair_metrics p.1 p.2
        (m.1 + pm.1, m.2.1 + pm.2.1, m.2.2 + pm.2.2))
      (0, 0, 0)
    let total := original_texts.length
    let issues_count := acc.1 + acc.2.1 + acc.2.2
    .ok
      { total_pairs := total
        empty_translations := acc.1
        identical_translations := acc.2.1
        suspicious_count := acc.2.2
        quality_score := max 0 (1 - (issues_count : ℚ) / (total : ℚ)) }

/-- Modelled from the spec: a pair is flagged when its translation is
empty, identical to the source, or has a length ratio outside [0.3, 3.0];
the claimed score charges one issue per flagged pair.  This definition
follows the claim's words for comparison with the source behaviour. -/
def spec_flagged_pairs (original_texts translated_texts : List String) : Nat :=
  (original_texts.zip translated_texts).countP
    (fun p =>
      py_strip p.2 = "" ∨ py_strip p.1 = py_strip p.2 ∨
      (0 < p.1.length ∧
        ((p.2.length : ℚ) / (p.1.length : ℚ) < 3 / 10 ∨
         (p.2.length : ℚ) / (p.1.length : ℚ) > 3)))

/-- Modelled from the spec: the claimed quality score. -/
def spec_quality_score (original_texts translated_texts : List String) : ℚ :=
  max 0 (1 - (spec_flagged_pairs original_texts translated_texts : ℚ) /
    (original_texts.length : ℚ))

/-! ## Finalizer task

Embedded from src/worker/tasks.py: build_translated_pdf and
finalize_task, together with the per-page result dicts produced by
translate_page_content_task (page_number, text_regions, image_regions,
page_dimensions, error).  S3 uploads and the byte-level PDF canvas are
external; the model records what would be rendered and uploaded.
Python truthiness of the error field matters: both None and the empty
string count as no error. -/

/-- A point-space position dict: x, y, width, height. -/
structure Position where
  x : ℚ
  y : ℚ
  width : ℚ
  height : ℚ
deriving DecidableEq, Repr

/-- A pixel-space coordinates dict: x1, y1, x2, y2. -/
structure Coordinates where
  x1 : ℚ
  y1 : ℚ
  x2 : ℚ
  y2 : ℚ
deriving DecidableEq, Repr

/-- A text region entry of a per-page result. -/
structure TextRegionData where
  id : Nat
  original_text : String
  translated_text : String
  position : Position
deriving DecidableEq, Repr

/-- An image region entry of a per-page result. -/
structure ImageRegionData where
  id : Nat
  position : Position
  coordinates : Coordinates
deriving DecidableEq, Repr

/-- Page dimensions in points. -/
structure Dimensions where
  width : ℚ
  height : ℚ
deriving DecidableEq, Repr

/-- One element of the finalizer's input list, as returned by
translate_page_content_task: error is None on success and str(e) on
failure (with empty region lists and page_dimensions None). -/
structure PageResult where
  page_number : Nat
  text_regions : List TextRegionData
  image_regions : List ImageRegionData
  page_dimensions : Option Dimensions
  error : Option String
deriving DecidableEq, Repr

/-- Python truthiness of the optional error string: None and "" are
falsy, every other string is truthy. -/
def error_truthy (e : Option String) : Bool :=
  match e with
  | none => false
  | some s => !s.isEmpty

/-- One text drawing operation recorded by the PDF build. -/
structure TextDraw where
  font : String
  text : String
  pos : Position
deriving DecidableEq, Repr

/-- One rendered output page. -/
structure RenderedPage where
  width : ℚ
  height : ℚ
  text_draws : List TextDraw
deriving DecidableEq, Repr

/-- Rendering of one non-skipped page inside build_translated_pdf:
page_dimensions is indexed unconditionally, so a page that reaches this
point with dimensions None raises (TypeError), which propagates out of
build_translated_pdf.  Image-region drawing failures are caught inside
their own loop and only logged, so they do not appear here. -/
def render_page (font_name : String) (p : PageResult) :
    Except Unit RenderedPage :=
  match p.page_dimensions with
  | none => .error ()
  | some dims =>
      .ok
        { width := dims.width
          height := dims.height
          text_draws := p.text_regions.map (fun tr =>
            { font := font_name, text := tr.translated_text, pos := tr.position }) }

/-- src/worker/tasks.py, build_translated_pdf: pick one font from the
target language, skip pages whose error field is truthy, render the
rest in order. -/
def build_translated_pdf (results_list : List PageResult)
    (target_language : String) : Except Unit (List RenderedPage) :=
  let font_name := get_font_for_language target_language
  (results_list.filter (fun p => !error_truthy p.error)).mapM
    (render_page font_name)

/-- One page of the uploaded TranslationData: page number plus
(id, original_text, translated_text) triples. -/
structure TranslationDataPage where
  page_number : Nat
  translations : List (Nat × String × String)
deriving DecidableEq, Repr

/-- One page of the uploaded PositionData. -/
structure PositionDataPage where
  page_number : Nat
  dimensions : Option Dimensions
  regions : List (Nat × Position)
  image_regions : List ImageRegionData
deriving DecidableEq, Repr

/-- The outcome of finalize_task: the success dict with its uploaded
artifacts, or the failure dict produced by the exception handler. -/
inductive FinalizeResult where
  | completed (translated_key : String)
      (translation_data : List TranslationDataPage)
      (position_data : List PositionDataPage)
      (errors : List String)
  | failed (error : String)
deriving DecidableEq, Repr

/-- src/worker/tasks.py, finalize_task: sort the batch results by page
number (Python list.sort is stable), build the translated PDF (whose
failure reaches the exception handler and yields the failed dict), then
assemble TranslationData and PositionData from the pages with a falsy
error field, and collect the truthy error strings.  Storage uploads are
external and modelled as succeeding. -/
def finalize_task (results_list : List PageResult) (task_id : String)
    (target_language : String) : FinalizeResult :=
  let sorted := results_list.mergeSort
    (fun a b => a.page_number ≤ b.page_number)
  match build_translated_pdf sorted target_language with
  | .error _ => .failed "exception during PDF reconstruction"
  | .ok _ =>
      let kept := sorted.filter (fun p => !error_truthy p.error)
      let translation_data := kept.map (fun p =>
        { page_number := p.page_number
          translations := p.text_regions.map (fun tr =>
            (tr.id, tr.original_text, tr.translated_text)) })
      let position_data := kept.map (fun p =>
        { page_number := p.page_number
          dimensions := p.page_dimensions
          regions := p.text_regions.map (fun tr => (tr.id, tr.position))
          image_regions := p.image_regions })
      let errors := sorted.filterMap (fun r =>
        if error_truthy r.error then r.error else none)
      .completed (task_id ++ "/translated/translated.pdf")
        translation_data position_data errors

/-- A two-page finalizer input used as concrete test data: page 0
succeeded, page 1 failed with a non-empty error and the usual error
placeholder shape (empty regions, no dimensions). -/
def sample_finalizer_input : List PageResult :=
  [⟨0, [⟨0, "o", "t", ⟨0, 0, 10, 10⟩⟩], [], some ⟨100, 200⟩, none⟩,
   ⟨1, [], [], none, some "boom"⟩]

/-! ## Status endpoint

Embedded from src/backend/main.py, get_task_status.  Celery states are
the strings PENDING, PROGRESS, SUCCESS, FAILURE (plus others); the info
dict of a task is modelled by the fields this endpoint reads, with None
info standing for a missing payload (the code replaces it with an empty
dict).  The result backend and the S3 existence probe are modelled as
functions supplied by the environment. -/

/-- The fields of a task's info dict that get_task_status reads. -/
structure TaskInfo where
  result_task_id : Option String := none
  status : Option String := none
  translated_key : Option String := none
  exc_message : Option String := none
deriving DecidableEq, Repr

/-- The empty info dict. -/
def TaskInfo.empty : TaskInfo := {}

/-- Python dict truthiness for the modelled info dict. -/
def TaskInfo.is_falsy (i : TaskInfo) : Bool := i == TaskInfo.empty

/-- The domain status values of the response. -/
inductive DocStatus where
  | pending
  | processing
  | completed
  | failed
deriving DecidableEq, Repr

/-- The coarse progress steps. -/
inductive ProcessingStep where
  | queued
  | converting_pdf
  | processing_pages
  | combining_pdf
  | unknown
deriving DecidableEq, Repr

/-- Python substring membership (needle in haystack) on character
lists. -/
def chars_contain (hay needle : List Char) : Bool :=
  if needle.isPrefixOf hay then true
  else
    match hay with
    | [] => false
    | _ :: t => chars_contain t needle

/-- Python substring membership on strings. -/
def str_contains (hay needle : String) : Bool :=
  chars_contain hay.toList needle.toList

/-- The response shape assembled by the endpoint (the fields the claim
depends on). -/
structure StatusResponse where
  status : DocStatus
  step : Option ProcessingStep
  details : Option String
  error : Option String
  translatedFile : Option String
deriving DecidableEq, Repr

/-- First half of get_task_status: the indirection block.  An
orchestrator SUCCESS whose info carries result_task_id is replaced by
the finalizer task's state and info; a finalizer still PENDING or
PROGRESS falls back to probing the translated PDF key in storage, and
the probe's success forges a SUCCESS state; an orchestrator SUCCESS
without result_task_id degrades to PROGRESS. -/
def status_indirection (task_id : String) (orch_state : String)
    (orch_info : Option TaskInfo)
    (final_state_of : String → String)
    (final_info_of : String → Option TaskInfo)
    (key_exists_s3 : String → Bool) : String × TaskInfo :=
  let info := orch_info.getD TaskInfo.empty
  if orch_state = "SUCCESS" then
    match info.result_task_id with
    | some final_task_id =>
        let fstate := final_state_of final_task_id
        let finfo := (final_info_of final_task_id).getD TaskInfo.empty
        if fstate = "PENDING" ∨ fstate = "PROGRESS" then
          let translated_key := task_id ++ "/translated/translated.pdf"
          if key_exists_s3 translated_key then
            ("SUCCESS",
              { status := some "DONE", translated_key := some translated_key })
          else
            ("PROGRESS",
              if finfo.is_falsy then
                { status := some "Finalizando traducción..." }
              else finfo)
        else (fstate, finfo)
    | none => ("PROGRESS", { status := some "Procesando resultado..." })
  else (orch_state, info)

/-- Second half of get_task_status: map the resolved Celery state to the
domain status, re-verifying a SUCCESS against the storage probe before
reporting completion. -/
def map_resolved_state (task_id : String) (key_exists_s3 : String → Bool)
    (state : String) (info : TaskInfo) : StatusResponse :=
  if state = "PENDING" then
    { status := .pending, step := some .queued, details := none,
      error := none, translatedFile := none }
  else if state = "PROGRESS" then
    let step_text := info.status.getD "Procesando..."
    let step : ProcessingStep :=
      if str_contains step_text "Convirtiendo" then .converting_pdf
      else if str_contains step_text "paralelo" then .processing_pages
      else if str_contains step_text "Ensamblando" ∨
        str_contains step_text "Reconstruyendo" then .combining_pdf
      else .unknown
    { status := .processing, step := some step, details := some step_text,
      error := none, translatedFile := none }
  else if state = "SUCCESS" then
    let translated_key :=
      info.translated_key.getD (task_id ++ "/translated/translated.pdf")
    if key_exists_s3 translated_key then
      { status := .completed, step := some .combining_pdf, details := none,
        error := none,
        translatedFile := some (task_id ++ "/translated/translated.pdf") }
    else
      { status := .processing, step := some .combining_pdf,
        details := some "Finalizando...", error := none,
        translatedFile := none }
  else if state = "FAILURE" then
    { status := .failed, step := none, details := none,
      error := some (info.exc_message.getD ""), translatedFile := none }
  else
    { status := .processing, step := some .unknown, details := none,
      error := none, translatedFile := none }

/-- src/backend/main.py, get_task_status: resolve the orchestrator task
through the finalizer indirection and map the resulting state. -/
def get_task_status (task_id : String) (orch_state : String)
    (orch_info : Option TaskInfo)
    (final_state_of : String → String)
    (final_info_of : String → Option TaskInfo)
    (key_exists_s3 : String → Bool) : StatusResponse :=
  let resolved := status_indirection task_id orch_state orch_info
    final_state_of final_info_of key_exists_s3
  map_resolved_state task_id key_exists_s3 resolved.1 resolved.2

/-! ## Upload verification

Embedded from src/worker/src/infrastructure/storage/s3.py, upload_bytes
and key_exists. -/

/-- Outcome of the head_object probe underlying key_exists. -/
inductive HeadResult where
  | success
  | client_error (code : Int)
  | other_exc
deriving DecidableEq, Repr

/-- key_exists: true on success, false exactly on a 404 ClientError, and
any other failure propagates. -/
def key_exists (head : HeadResult) : Except Unit Bool :=
  match head with
  | .success => .ok true
  | .client_error code => if code = 404 then .ok false else .error ()
  | .other_exc => .error ()

/-- Outcome of the put_object call underlying upload_bytes. -/
inductive PutOutcome where
  | ok
  | raise_exc
deriving DecidableEq, Repr

/-- The log lines upload_bytes can emit that distinguish its paths. -/
inductive UploadLog where
  | uploaded_info
  | verified_info
  | verify_warning
  | error_log
deriving DecidableEq, Repr

/-- The try block of upload_bytes: put the object, log the upload, then
probe the key; a positive probe logs verification, a negative probe logs
a warning, and the function returns None either way. -/
def upload_bytes_try (put : PutOutcome) (head : HeadResult) :
    Except Unit (List UploadLog) :=
  match put with
  | .raise_exc => .error ()
  | .ok =>
      match key_exists head with
      | .error _ => .error ()
      | .ok true => .ok [.uploaded_info, .verified_info]
      | .ok false => .ok [.uploaded_info, .verify_warning]

/-- src/worker/src/infrastructure/storage/s3.py, upload_bytes: the
except block logs the error and re-raises, so every exception of the try
block (from put_object or from the probe) surfaces to the caller. -/
def upload_bytes (put : PutOutcome) (head : HeadResult) :
    Except (List UploadLog) (List UploadLog) :=
  match upload_bytes_try put head with
  | .ok logs => .ok logs
  | .error _ => .error [.error_log]

/-! ## Helper lemmas -/

/-- Every page rendered by a successful mapM over render_page draws its
text with the supplied font. -/
theorem render_mapM_font (f : String) :
    ∀ (l : List PageResult) (pages : List RenderedPage),
      l.mapM (render_page f) = .ok pages →
      ∀ pg ∈ pages, ∀ td ∈ pg.text_draws, td.font = f := by
  intro l
  induction l with
  | nil =>
      intro pages h
      simp only [List.mapM_nil, pure, Except.pure] at h
      cases h
      simp
  | cons p t ih =>
      intro pages h
      simp only [List.mapM_cons] at h
      cases hp : render_page f p with
      | error e => rw [hp] at h; simp [Bind.bind, Except.bind] at h
      | ok pg0 =>
          rw [hp] at h
          cases ht : t.mapM (render_page f) with
          | error e =>
              rw [ht] at h; simp [Bind.bind, Except.bind] at h
          | ok rest =>
              rw [ht] at h
              simp only [Bind.bind, Except.bind, pure, Except.pure] at h
              cases h
              intro pg hpg td htd
              rcases List.mem_cons.mp hpg with hpg0 | hpgrest
              · subst hpg0
                cases hdims : p.page_dimensions with
                | none => rw [render_page, hdims] at hp; cases hp
                | some dims =>
                    rw [render_page, hdims] at hp
                    cases hp
                    simp only [List.mem_map] at htd
                    obtain ⟨tr, _, htr⟩ := htd
                    rw [← htr]
              · exact ih rest ht pg hpgrest td htd

/-! ## Claim theorems -/

/-- C9: the ISO codes ja, ko, zh are members of the shared
supported-language table but get_font_for_language maps them to the
Latin font OpenSans; the CJK CID fonts are returned exactly for the
codes jp, kr, cn, which are not members of that table; consequently the
Generation 2 build path (build_translated_pdf) draws every text region
of a ja, ko or zh document with OpenSans. -/
theorem c9_cjk_iso_codes_render_with_latin_font :
    (get_font_for_language "ja" = "OpenSans" ∧
     get_font_for_language "ko" = "OpenSans" ∧
     get_font_for_language "zh" = "OpenSans") ∧
    ("ja" ∈ SUPPORTED_LANGUAGES_keys ∧ "ko" ∈ SUPPORTED_LANGUAGES_keys ∧
     "zh" ∈ SUPPORTED_LANGUAGES_keys) ∧
    (∀ lang : String, get_font_for_language lang ≠ "OpenSans" ↔
      lang = "jp" ∨ lang = "kr" ∨ lang = "cn") ∧
    ("jp" ∉ SUPPORTED_LANGUAGES_keys ∧ "kr" ∉ SUPPORTED_LANGUAGES_keys ∧
     "cn" ∉ SUPPORTED_LANGUAGES_keys) ∧
    (∀ (results : List PageResult) (lang : String)
        (pages : List RenderedPage),
      (lang = "ja" ∨ lang = "ko" ∨ lang = "zh") →
      build_translated_pdf results lang = .ok pages →
      ∀ pg ∈ pages, ∀ td ∈ pg.text_draws, td.font = "OpenSans") := by
  refine ⟨by decide, by decide, ?_, by decide, ?_⟩
  · intro lang
    constructor
    · intro hne
      by_cases h1 : lang = "jp"
      · exact Or.inl h1
      by_cases h2 : lang = "kr"
      · exact Or.inr (Or.inl h2)
      by_cases h3 : lang = "cn"
      · exact Or.inr (Or.inr h3)
      exfalso
      apply hne
      have hb1 : (lang == "jp") = false := by simp [h1]
      have hb2 : (lang == "kr") = false := by simp [h2]
      have hb3 : (lang == "cn") = false := by simp [h3]
      simp only [get_font_for_language, cjk_fonts, List.lookup, hb1, hb2, hb3]
    · rintro (rfl | rfl | rfl) <;> decide
  · intro results lang pages hlang hbuild
    have hfont : get_font_for_language lang = "OpenSans" := by
      rcases hlang with rfl | rfl | rfl <;> decide
    rw [build_translated_pdf, hfont] at hbuild
    exact render_mapM_font "OpenSans" _ pages hbuild

/-- C9 witness: the quantified build clause instantiated on one concrete
single-page result translated to Japanese. -/
theorem c9_cjk_iso_codes_render_with_latin_font_witness :
    ∀ pg ∈ [(⟨100, 200, [⟨"OpenSans", "t", ⟨0, 0, 10, 10⟩⟩]⟩ : RenderedPage)],
      ∀ td ∈ pg.text_draws, td.font = "OpenSans" :=
  c9_cjk_iso_codes_render_with_latin_font.2.2.2.2
    [⟨0, [⟨0, "o", "t", ⟨0, 0, 10, 10⟩⟩], [], some ⟨100, 200⟩, none⟩]
    "ja" _ (Or.inl rfl) rfl

/-- C10: a put_object success followed by a negative existence probe
makes upload_bytes return normally with a verification warning logged;
upload_bytes raises exactly when put_object raises or the probe itself
raises, never because the probe merely reported the object absent. -/
theorem c10_upload_verification_failure_is_only_logged :
    (∀ head : HeadResult, key_exists head = .ok false →
      upload_bytes .ok head = .ok [.uploaded_info, .verify_warning]) ∧
    (∀ (put : PutOutcome) (head : HeadResult),
      (∃ logs, upload_bytes put head = .error logs) ↔
        put = .raise_exc ∨ key_exists head = .error ()) := by
  constructor
  · intro head hprobe
    rw [upload_bytes, upload_bytes_try, hprobe]
  · intro put head
    cases put with
    | raise_exc => simp [upload_bytes, upload_bytes_try]
    | ok =>
        cases h : key_exists head with
        | error e => simp [upload_bytes, upload_bytes_try, h]
        | ok b => cases b <;> simp [upload_bytes, upload_bytes_try, h]

/-- C10 witness: with a successful put and a 404 probe, the upload
returns normally with the warning recorded. -/
theorem c10_upload_verification_failure_is_only_logged_witness :
    upload_bytes .ok (.client_error 404) =
      .ok [.uploaded_info, .verify_warning] :=
  c10_upload_verification_failure_is_only_logged.1 (.client_error 404) rfl

/-- C5: the pixel-to-point frame conversion with page dimensions derived
from the raster size and the DPI is invertible — applying the inverse
formulas recovers the original pixel box exactly — and a box touching
the raster's top edge maps to a frame touching the page's top edge,
which verifies the vertical flip. -/
theorem c5_geometry_roundtrip_and_vertical_flip
    (W H d x1 y1 x2 y2 : ℚ)
    (hW : 0 < W) (hH : 0 < H) (hd : 0 < d)
    (hx1 : 0 ≤ x1) (hx12 : x1 ≤ x2) (hx2 : x2 ≤ W)
    (hy1 : 0 ≤ y1) (hy12 : y1 ≤ y2) (hy2 : y2 ≤ H) :
    frame_to_pixel_box (page_width_pts W d) (page_height_pts H d) W H
      (pixel_box_to_frame (page_width_pts W d) (page_height_pts H d) W H
        x1 y1 x2 y2) = (x1, y1, x2, y2) ∧
    (y1 = 0 →
      (pixel_box_to_frame (page_width_pts W d) (page_height_pts H d) W H
        x1 y1 x2 y2).y +
      (pixel_box_to_frame (page_width_pts W d) (page_height_pts H d) W H
        x1 y1 x2 y2).height = page_height_pts H d) := by
  have hWne : W ≠ 0 := ne_of_gt hW
  have hHne : H ≠ 0 := ne_of_gt hH
  have hdne : d ≠ 0 := ne_of_gt hd
  constructor
  · simp only [frame_to_pixel_box, pixel_box_to_frame, page_width_pts,
      page_height_pts]
    refine Prod.ext ?_ (Prod.ext ?_ (Prod.ext ?_ ?_)) <;>
      (show _ = _) <;> field_simp <;> ring
  · intro hy0
    simp only [pixel_box_to_frame, page_height_pts, hy0]
    field_simp
    ring

/-- C5 witness: a 1000 by 2000 pixel raster at 300 DPI with the box
(10, 0, 110, 220), which touches the top edge. -/
theorem c5_geometry_roundtrip_and_vertical_flip_witness :
    frame_to_pixel_box (page_width_pts 1000 300) (page_height_pts 2000 300)
      1000 2000
      (pixel_box_to_frame (page_width_pts 1000 300)
        (page_height_pts 2000 300) 1000 2000 10 0 110 220) =
      (10, 0, 110, 220) ∧
    (0 = (0 : ℚ) →
      (pixel_box_to_frame (page_width_pts 1000 300)
        (page_height_pts 2000 300) 1000 2000 10 0 110 220).y +
      (pixel_box_to_frame (page_width_pts 1000 300)
        (page_height_pts 2000 300) 1000 2000 10 0 110 220).height =
      page_height_pts 2000 300) :=
  c5_geometry_roundtrip_and_vertical_flip 1000 2000 300 10 0 110 220
    (by norm_num) (by norm_num) (by norm_num) (by norm_num) (by norm_num)
    (by norm_num) (by norm_num) (by norm_num) (by norm_num)

/-- Helper: a successful Generation 1 client call returns exactly one
translation per input text, because a short parsed array is padded with
originals and a long one is truncated. -/
theorem client_translate_texts_length (texts : List String) (raw : RawApi)
    (result : List String)
    (h : client_translate_texts texts raw = some result) :
    result.length = texts.length := by
  rw [client_translate_texts] at h
  split at h
  · rename_i hemp
    cases h
    simp [List.isEmpty_iff.mp hemp]
  · cases hc : call_translation_api raw with
    | none => rw [hc] at h; cases h
    | some ts =>
        rw [hc] at h
        cases h
        simp only [List.length_take, List.length_append, List.length_drop]
        omega

/-- Helper: the per-text fallback keeps one output per input. -/
theorem translate_individually_length (rt : String → RawApi)
    (texts : List String) :
    (translate_individually rt texts).length = texts.length := by
  simp [translate_individually]

/-- Helper: the chunked batch path preserves the input length for every
behaviour of the upstream API. -/
theorem translate_batch_length (rc : List String → RawApi)
    (rt : String → RawApi) (texts : List String) :
    (translate_batch rc rt texts).length = texts.length := by
  have key : ∀ (n : Nat) (l : List String), l.length ≤ n →
      (translate_batch rc rt l).length = l.length := by
    intro n
    induction n with
    | zero =>
        intro l hl
        have : l = [] := List.length_eq_zero.mp (Nat.le_zero.mp hl)
        subst this
        rw [translate_batch]
        simp
    | succ n ih =>
        intro l hl
        rw [translate_batch]
        split
        · rename_i hemp
          simp at hemp
          simp [hemp]
        · rename_i hemp
          simp only [List.length_append]
          have hdrop : (translate_batch rc rt (l.drop 10)).length =
              (l.drop 10).length := by
            apply ih
            simp only [List.length_drop]
            omega
          have htake :
              (match client_translate_texts (l.take 10) (rc (l.take 10)) with
                | some ts => ts
                | none => translate_individually rt (l.take 10)).length =
              (l.take 10).length := by
            cases hc : client_translate_texts (l.take 10) (rc (l.take 10)) with
            | none => simp [translate_individually_length]
            | some ts => simpa using client_translate_texts_length _ _ _ hc
          rw [htake, hdrop]
          simp only [List.length_take, List.length_drop]
          omega
  exact key texts.length texts le_rfl

/-- C2: whenever a translation path returns a list instead of raising,
the list has exactly the input's length.  Generation 2
(translate_text_async) either re-raises a typed API error or returns a
list of the input length (the parsed array on a matching count, the
original texts otherwise); the Generation 1 engine's chunked batch path
(_translate_batch over the padding/truncating client with the per-text
fallback) always returns a list of the input length. -/
theorem c2_translation_length_invariant :
    (∀ (texts : List String) (outcome : ApiOutcome) (result : List String),
      translate_text_async texts outcome = .ok result →
      result.length = texts.length) ∧
    (∀ (rc : List String → RawApi) (rt : String → RawApi)
        (texts : List String),
      (translate_batch rc rt texts).length = texts.length) := by
  constructor
  · intro texts outcome result h
    rw [translate_text_async.eq_def] at h
    split at h
    · rename_i hemp
      cases h
      simp_all [List.isEmpty_iff]
    · cases outcome with
      | api_error => cases h
      | other_exc => cases h; rfl
      | parsed ts =>
          simp only at h
          split at h
          · cases h; rfl
          · rename_i hlen
            cases h
            omega
  · exact translate_batch_length

/-- C2 witness: a parsed response of mismatched length makes the
Generation 2 path fall back to the originals, whose length matches. -/
theorem c2_translation_length_invariant_witness :
    translate_text_async ["a"] (.parsed ["b", "c"]) = .ok ["a"] ∧
    ([("a" : String)]).length = ([("a" : String)]).length :=
  ⟨rfl, c2_translation_length_invariant.1 ["a"] (.parsed ["b", "c"]) ["a"] rfl⟩

/-- Helper: path resolution never produces an empty component. -/
theorem resolve_components_ne_empty (comps : List String) :
    ∀ c ∈ resolve_components comps, c ≠ "" := by
  suffices h : ∀ (l acc : List String), (∀ c ∈ acc, c ≠ "") →
      ∀ c ∈ l.foldl
        (fun acc c =>
          if c = "." ∨ c = "" then acc
          else if c = ".." then acc.dropLast
          else acc ++ [c]) acc, c ≠ "" by
    exact h comps [] (by simp)
  intro l
  induction l with
  | nil => intro acc hacc; simpa using hacc
  | cons x t ih =>
      intro acc hacc
      simp only [List.foldl_cons]
      by_cases h1 : x = "." ∨ x = ""
      · rw [if_pos h1]; exact ih acc hacc
      · rw [if_neg h1]
        by_cases h2 : x = ".."
        · rw [if_pos h2]
          exact ih _ (fun c hc => hacc c (List.dropLast_subset _ hc))
        · rw [if_neg h2]
          refine ih _ (fun c hc => ?_)
          rcases List.mem_append.mp hc with h | h
          · exact hacc c h
          · simp only [List.mem_singleton] at h
            subst h
            push_neg at h1
            exact h1.2

/-- Helper: resolving a path extended by one final component takes one
resolution step on the resolved base. -/
theorem resolve_components_append_single (base : List String) (s : String) :
    resolve_components (base ++ [s]) =
      if s = "." ∨ s = "" then resolve_components base
      else if s = ".." then (resolve_components base).dropLast
      else resolve_components base ++ [s] := by
  simp [resolve_components, List.foldl_append]

/-- Helper: the rendered string of a path is a string prefix of the
rendered string of any extension of that path. -/
theorem path_chars_prefix_append (l t : List String) :
    path_chars l <+: path_chars (l ++ t) := by
  by_cases hl : l = []
  · subst hl
    by_cases ht : t = []
    · subst ht; simp [path_chars]
    · simp only [path_chars, List.nil_append, if_neg ht, if_pos rfl]
      cases t with
      | nil => exact absurd rfl ht
      | cons c u =>
          exact ⟨c.toList ++ u.flatMap fun c => '/' :: c.toList, by simp⟩
  · have hlt : l ++ t ≠ [] := by simp [hl]
    simp only [path_chars, if_neg hl, if_neg hlt, List.flatMap_append]
    exact List.prefix_append _ _

/-- Helper: dropping the last of a nonempty path with nonempty
components strictly shortens its rendered string. -/
theorem path_chars_dropLast_length_lt (l : List String) (hl : l ≠ [])
    (hne : ∀ c ∈ l, c ≠ "") :
    (path_chars l.dropLast).length < (path_chars l).length := by
  have hlast : l.dropLast ++ [l.getLast hl] = l := List.dropLast_append_getLast hl
  have hlast_ne : (l.getLast hl).toList ≠ [] := by
    intro hd
    apply hne (l.getLast hl) (List.getLast_mem hl)
    cases hg : l.getLast hl
    simp_all
  have hlast_pos : 0 < (l.getLast hl).toList.length :=
    List.length_pos.mpr hlast_ne
  by_cases hd : l.dropLast = []
  · rw [hd]
    conv_rhs => rw [← hlast, hd, List.nil_append]
    have h1 : (path_chars []).length = 1 := by simp [path_chars]
    have h2 : (path_chars [l.getLast hl]).length =
        1 + (l.getLast hl).toList.length := by
      have hne2 : ([l.getLast hl] : List String) ≠ [] := by simp
      simp [path_chars, if_neg hne2]
      omega
    rw [h1, h2]
    omega
  · conv_rhs => rw [← hlast]
    have hda : l.dropLast ++ [l.getLast hl] ≠ [] := by simp [hd]
    simp only [path_chars, if_neg hd, if_neg hda, List.flatMap_append,
      List.length_append, List.flatMap_cons, List.flatMap_nil,
      List.append_nil, List.length_cons]
    omega

/-- C6 counterexample: the literal call of the claim does not raise.
Cleaning strips the slash characters, so "../../etc/passwd" becomes the
harmless component "....etcpasswd" and get_safe_path returns that path
inside the base directory. -/
theorem c6_path_traversal_guard_counterexample :
    get_safe_path ["app", "uploads"] "../../etc/passwd" =
      .ok ["app", "uploads", "....etcpasswd"] ∧
    get_safe_path ["app", "uploads"] "../../etc/passwd" ≠
      .error "PATH_TRAVERSAL_DETECTED" ∧
    ["app", "uploads"] <+: ["app", "uploads", "....etcpasswd"] := by
  refine ⟨rfl, ?_, ["....etcpasswd"], rfl⟩
  intro h
  exact Except.noConfusion
    ((show get_safe_path ["app", "uploads"] "../../etc/passwd" =
        .ok ["app", "uploads", "....etcpasswd"] from rfl).symm.trans h)

/-- C6 (amended): every path get_safe_path returns lies inside the
resolved base directory — it is the resolved base itself or the base
extended by the cleaned filename — and a cleaned filename that does
escape a nonempty base (dot-dot) raises the validation error. -/
theorem c6_safe_path_never_escapes_base :
    (∀ (base : List String) (filename : String) (r : List String),
      get_safe_path base filename = .ok r →
      ∃ rest, r = resolve_components base ++ rest ∧
        (rest = [] ∨ rest = [clean_filename filename])) ∧
    (∀ base : List String, resolve_components base ≠ [] →
      get_safe_path base ".." = .error "PATH_TRAVERSAL_DETECTED") := by
  have hstep : ∀ base : List String,
      resolve_components (base ++ [".."]) =
        (resolve_components base).dropLast := by
    intro base
    rw [resolve_components_append_single,
      if_neg (by decide : ¬((".." : String) = "." ∨ (".." : String) = "")),
      if_pos rfl]
  have hdotdot : ∀ base : List String, resolve_components base ≠ [] →
      py_startswith
        (path_chars (resolve_components (base ++ [".."])))
        (path_chars (resolve_components base)) = false := by
    intro base hb
    rw [hstep base, py_startswith, Bool.eq_false_iff]
    intro hp
    have hpre := List.isPrefixOf_iff_prefix.mp hp
    have hlen := hpre.length_le
    have hlt := path_chars_dropLast_length_lt (resolve_components base) hb
      (resolve_components_ne_empty base)
    omega
  constructor
  · intro base filename r h
    simp only [get_safe_path] at h
    split at h
    · rename_i hstarts
      cases h
      rw [resolve_components_append_single]
      by_cases h1 : clean_filename filename = "." ∨ clean_filename filename = ""
      · rw [if_pos h1]
        exact ⟨[], by simp⟩
      · rw [if_neg h1]
        by_cases h2 : clean_filename filename = ".."
        · rw [if_pos h2]
          by_cases hb : resolve_components base = []
          · rw [hb]
            exact ⟨[], by simp⟩
          · exfalso
            have hfalse := hdotdot base hb
            rw [h2] at hstarts
            rw [hstarts] at hfalse
            exact Bool.noConfusion hfalse
        · rw [if_neg h2]
          exact ⟨[clean_filename filename], rfl, Or.inr rfl⟩
    · exact Except.noConfusion h
  · intro base hb
    have hclean : clean_filename ".." = ".." := rfl
    simp only [get_safe_path, hclean]
    rw [hdotdot base hb]
    simp

/-- C6 amended witness: the containment clause instantiated on the
literal input of the claim, and the error clause on a dot-dot filename
under a nonempty base. -/
theorem c6_safe_path_never_escapes_base_witness :
    (∃ rest, ["app", "uploads", "....etcpasswd"] =
        resolve_components ["app", "uploads"] ++ rest ∧
      (rest = [] ∨ rest = [clean_filename "../../etc/passwd"])) ∧
    get_safe_path ["docs"] ".." = .error "PATH_TRAVERSAL_DETECTED" :=
  ⟨c6_safe_path_never_escapes_base.1 ["app", "uploads"] "../../etc/passwd"
      ["app", "uploads", "....etcpasswd"] rfl,
   c6_safe_path_never_escapes_base.2 ["docs"] (by decide)⟩

/-- C1 counterexample: an orchestrator SUCCESS pointing at a finalizer
that still reports PROGRESS is surfaced as COMPLETED whenever the
translated PDF key already exists in storage, because the endpoint's
existence fallback forges a SUCCESS state; so the endpoint does not
always report PROCESSING in this situation. -/
theorem c1_status_indirection_counterexample :
    (get_task_status "t" "SUCCESS"
      (some { result_task_id := some "X" })
      (fun _ => "PROGRESS") (fun _ => none) (fun _ => true)).status =
      .completed ∧
    (DocStatus.completed ≠ DocStatus.processing) := by
  constructor
  · rfl
  · intro h
    exact DocStatus.noConfusion h

/-- C1 (amended): with the orchestrator SUCCESS carrying
result_task_id = X and the finalizer X reporting PROGRESS, the endpoint
reports PROCESSING exactly when the translated PDF key is absent from
storage; when that key already exists, the existence fallback reports
COMPLETED instead. -/
theorem c1_status_indirection_amended
    (task_id : String) (orch_info : TaskInfo) (x : String)
    (final_state_of : String → String)
    (final_info_of : String → Option TaskInfo)
    (key_exists_s3 : String → Bool)
    (hinfo : orch_info.result_task_id = some x)
    (hfinal : final_state_of x = "PROGRESS") :
    (get_task_status task_id "SUCCESS" (some orch_info) final_state_of
      final_info_of key_exists_s3).status =
      (if key_exists_s3 (task_id ++ "/translated/translated.pdf")
       then .completed else .processing) := by
  cases hk : key_exists_s3 (task_id ++ "/translated/translated.pdf") with
  | true =>
      simp [get_task_status, status_indirection, map_resolved_state,
        hinfo, hfinal, hk]
  | false =>
      have hres : (status_indirection task_id "SUCCESS" (some orch_info)
          final_state_of final_info_of key_exists_s3).1 = "PROGRESS" := by
        simp [status_indirection, hinfo, hfinal, hk]
      simp only [get_task_status]
      rw [hres]
      simp [map_resolved_state, hk]

/-- C1 amended witness: a concrete pending-finalizer state with the
object absent from storage reports PROCESSING. -/
theorem c1_status_indirection_amended_witness :
    (get_task_status "t" "SUCCESS"
      (some { result_task_id := some "X" })
      (fun _ => "PROGRESS") (fun _ => none) (fun _ => false)).status =
      (if (fun (_ : String) => false) ("t" ++ "/translated/translated.pdf")
       then .completed else .processing) :=
  c1_status_indirection_amended "t" { result_task_id := some "X" } "X"
    (fun _ => "PROGRESS") (fun _ => none) (fun _ => false) rfl rfl

/-- Helper: rendering succeeds for every page list whose pages all carry
dimensions. -/
theorem render_mapM_ok (f : String) :
    ∀ l : List PageResult, (∀ p ∈ l, p.page_dimensions ≠ none) →
      ∃ pages, l.mapM (render_page f) = .ok pages := by
  intro l
  induction l with
  | nil => exact fun _ => ⟨[], rfl⟩
  | cons p t ih =>
      intro hdims
      obtain ⟨rest, hrest⟩ := ih (fun q hq => hdims q (List.mem_cons_of_mem p hq))
      cases hd : p.page_dimensions with
      | none => exact absurd hd (hdims p (List.mem_cons_self p t))
      | some dims =>
          obtain ⟨pg, hpg⟩ : ∃ pg, render_page f p = .ok pg :=
            ⟨_, by rw [render_page, hd]⟩
          refine ⟨pg :: rest, ?_⟩
          rw [List.mapM_cons, hpg, hrest]
          rfl

/-- C3 counterexample: a per-page result whose error field is the empty
string is non-null, yet the finalizer treats it by Python truthiness as
no error: the page is kept in the uploaded TranslationData and
PositionData and the empty-string error is missing from the errors
list, contradicting the claimed exact correspondence with non-null
error fields. -/
theorem c3_partial_failure_containment_counterexample :
    finalize_task
        [⟨0, [⟨0, "o", "t", ⟨0, 0, 10, 10⟩⟩], [], some ⟨100, 200⟩, some ""⟩]
        "t" "es" =
      .completed "t/translated/translated.pdf"
        [⟨0, [(0, "o", "t")]⟩]
        [⟨0, some ⟨100, 200⟩, [(0, ⟨0, 0, 10, 10⟩)], []⟩]
        [] ∧
    ([] : List String) ≠ [""] := by
  constructor
  · simp only [finalize_task, List.mergeSort, build_translated_pdf]
    rfl
  · simp

/-- C3 (amended): for every finalizer input whose pages with falsy
(null or empty) error fields all carry page dimensions, finalize_task
returns COMPLETED; its errors list consists of the truthy (non-empty)
per-page error strings in sorted page order, and the uploaded
TranslationData and PositionData contain exactly the pages whose error
field is falsy — pages with a non-empty error are omitted without
aborting the document. -/
theorem c3_partial_failure_containment
    (results : List PageResult) (task_id target_language : String)
    (hdims : ∀ p ∈ results, error_truthy p.error = false →
      p.page_dimensions ≠ none) :
    ∃ td pd errs,
      finalize_task results task_id target_language =
        .completed (task_id ++ "/translated/translated.pdf") td pd errs ∧
      errs = (results.mergeSort
          (fun a b => a.page_number ≤ b.page_number)).filterMap
        (fun r => if error_truthy r.error then r.error else none) ∧
      td.map (fun p => p.page_number) =
        ((results.mergeSort
            (fun a b => a.page_number ≤ b.page_number)).filter
          (fun p => !error_truthy p.error)).map (fun p => p.page_number) ∧
      pd.map (fun p => p.page_number) =
        ((results.mergeSort
            (fun a b => a.page_number ≤ b.page_number)).filter
          (fun p => !error_truthy p.error)).map (fun p => p.page_number) ∧
      td.length =
        (results.filter (fun p => !error_truthy p.error)).length := by
  have hperm : (results.mergeSort
      (fun a b => a.page_number ≤ b.page_number)).Perm results :=
    List.mergeSort_perm results _
  have hkept : ∀ p ∈ (results.mergeSort
      (fun a b => a.page_number ≤ b.page_number)).filter
        (fun p => !error_truthy p.error),
      p.page_dimensions ≠ none := by
    intro p hp
    have hmem := List.mem_filter.mp hp
    refine hdims p (hperm.mem_iff.mp hmem.1) ?_
    have := hmem.2
    simpa using this
  obtain ⟨pages, hpages⟩ :=
    render_mapM_ok (get_font_for_language target_language) _ hkept
  refine
    ⟨((results.mergeSort (fun a b => a.page_number ≤ b.page_number)).filter
        (fun p => !error_truthy p.error)).map (fun p =>
          (⟨p.page_number, p.text_regions.map (fun tr =>
            (tr.id, tr.original_text, tr.translated_text))⟩ :
            TranslationDataPage)),
     ((results.mergeSort (fun a b => a.page_number ≤ b.page_number)).filter
        (fun p => !error_truthy p.error)).map (fun p =>
          (⟨p.page_number, p.page_dimensions,
            p.text_regions.map (fun tr => (tr.id, tr.position)),
            p.image_regions⟩ : PositionDataPage)),
     (results.mergeSort (fun a b => a.page_number ≤ b.page_number)).filterMap
        (fun r => if error_truthy r.error then r.error else none),
     ?_, rfl, ?_, ?_, ?_⟩
  · simp only [finalize_task, build_translated_pdf]
    rw [hpages]
  · simp
  · simp
  · have hfp := (hperm.filter (fun p => !error_truthy p.error)).length_eq
    simpa using hfp

/-- C3 amended witness: one successful page and one page that failed
with a non-empty error; the finalizer keeps the good page, reports the
error, and completes. -/
theorem c3_partial_failure_containment_witness :
    ∃ td pd errs,
      finalize_task sample_finalizer_input "t" "es" =
        .completed ("t" ++ "/translated/translated.pdf") td pd errs ∧
      errs = (sample_finalizer_input.mergeSort
          (fun a b => a.page_number ≤ b.page_number)).filterMap
        (fun r => if error_truthy r.error then r.error else none) ∧
      td.map (fun p => p.page_number) =
        ((sample_finalizer_input.mergeSort
            (fun a b => a.page_number ≤ b.page_number)).filter
          (fun p => !error_truthy p.error)).map (fun p => p.page_number) ∧
      pd.map (fun p => p.page_number) =
        ((sample_finalizer_input.mergeSort
            (fun a b => a.page_number ≤ b.page_number)).filter
          (fun p => !error_truthy p.error)).map (fun p => p.page_number) ∧
      td.length =
        (sample_finalizer_input.filter
          (fun p => !error_truthy p.error)).length :=
  c3_partial_failure_containment sample_finalizer_input "t" "es" (by decide)

/-- Helper: the shrink loop never increases the size. -/
theorem shrink_loop_le (hgt : ℚ → ℚ) (avail minS s : ℚ) :
    shrink_loop hgt avail minS s ≤ s := by
  induction s using shrink_loop.induct hgt avail minS with
  | case1 s hcond ih =>
      rw [shrink_loop, dif_pos hcond]
      linarith
  | case2 s hcond =>
      rw [shrink_loop, dif_neg hcond]

/-- Helper: the shrink loop stays strictly above one point below the
floor whenever it starts there. -/
theorem shrink_loop_gt_floor_sub_one (hgt : ℚ → ℚ) (avail minS s : ℚ)
    (hs : minS - 1 < s) :
    minS - 1 < shrink_loop hgt avail minS s := by
  induction s using shrink_loop.induct hgt avail minS with
  | case1 s hcond ih =>
      rw [shrink_loop, dif_pos hcond]
      exact ih (by linarith [hcond.2])
  | case2 s hcond =>
      rw [shrink_loop, dif_neg hcond]
      exact hs

/-- Helper: the shrink loop takes a natural number of unit steps. -/
theorem shrink_loop_steps_nat (hgt : ℚ → ℚ) (avail minS s : ℚ) :
    ∃ m : ℕ, s - shrink_loop hgt avail minS s = m := by
  induction s using shrink_loop.induct hgt avail minS with
  | case1 s hcond ih =>
      obtain ⟨m, hm⟩ := ih
      refine ⟨m + 1, ?_⟩
      rw [shrink_loop, dif_pos hcond]
      push_cast
      linarith
  | case2 s hcond =>
      exact ⟨0, by rw [shrink_loop, dif_neg hcond]; simp⟩

/-- Helper: starting on or above the floor at an integer distance from
it, the shrink loop never ends below the floor. -/
theorem shrink_loop_ge_floor (hgt : ℚ → ℚ) (avail minS s : ℚ)
    (hs : minS ≤ s) (hk : ∃ k : ℤ, s - minS = k) :
    minS ≤ shrink_loop hgt avail minS s := by
  induction s using shrink_loop.induct hgt avail minS with
  | case1 s hcond ih =>
      obtain ⟨k, hkk⟩ := hk
      rw [shrink_loop, dif_pos hcond]
      have hkpos : (0 : ℚ) < k := by rw [← hkk]; linarith [hcond.2]
      have hk1 : (1 : ℤ) ≤ k := by exact_mod_cast hkpos
      refine ih ?_ ⟨k - 1, ?_⟩
      · have : (1 : ℚ) ≤ k := by exact_mod_cast hk1
        linarith [hkk]
      · push_cast
        linarith [hkk]
  | case2 s hcond =>
      rw [shrink_loop, dif_neg hcond]
      exact hs

/-- Helper: the grow loop never decreases the size. -/
theorem grow_loop_ge (hgt : ℚ → ℚ) (avail maxS s : ℚ) :
    s ≤ grow_loop hgt avail maxS s := by
  induction s using grow_loop.induct hgt avail maxS with
  | case1 s hcond hover =>
      rw [grow_loop, dif_pos hcond, if_pos hover]
  | case2 s hcond hover ih =>
      rw [grow_loop, dif_pos hcond, if_neg hover]
      linarith
  | case3 s hcond =>
      rw [grow_loop, dif_neg hcond]

/-- Helper: the grow loop stays strictly below one point above the
ceiling whenever it starts there. -/
theorem grow_loop_lt_ceiling_add_one (hgt : ℚ → ℚ) (avail maxS s : ℚ)
    (hs : s < maxS + 1) :
    grow_loop hgt avail maxS s < maxS + 1 := by
  induction s using grow_loop.induct hgt avail maxS with
  | case1 s hcond hover =>
      rw [grow_loop, dif_pos hcond, if_pos hover]
      exact hs
  | case2 s hcond hover ih =>
      rw [grow_loop, dif_pos hcond, if_neg hover]
      exact ih (by linarith [hcond.2])
  | case3 s hcond =>
      rw [grow_loop, dif_neg hcond]
      exact hs

/-- Helper: starting on or below the ceiling at an integer distance from
it, the grow loop never ends above the ceiling. -/
theorem grow_loop_le_ceiling (hgt : ℚ → ℚ) (avail maxS s : ℚ)
    (hs : s ≤ maxS) (hk : ∃ k : ℤ, maxS - s = k) :
    grow_loop hgt avail maxS s ≤ maxS := by
  induction s using grow_loop.induct hgt avail maxS with
  | case1 s hcond hover =>
      rw [grow_loop, dif_pos hcond, if_pos hover]
      exact hs
  | case2 s hcond hover ih =>
      obtain ⟨k, hkk⟩ := hk
      rw [grow_loop, dif_pos hcond, if_neg hover]
      have hkpos : (0 : ℚ) < k := by rw [← hkk]; linarith [hcond.2]
      have hk1 : (1 : ℤ) ≤ k := by exact_mod_cast hkpos
      refine ih ?_ ⟨k - 1, ?_⟩
      · have : (1 : ℚ) ≤ k := by exact_mod_cast hk1
        linarith [hkk]
      · push_cast
        linarith [hkk]
  | case3 s hcond =>
      rw [grow_loop, dif_neg hcond]
      exact hs

/-- Helper: one point of shrink fuel per point of distance above the
floor is always enough, and the bounded loop agrees with the unbounded
one. -/
theorem shrink_fuel_spec (hgt : ℚ → ℚ) (avail minS : ℚ) :
    ∀ (n : Nat) (s : ℚ), (⌈s - minS⌉).toNat ≤ n →
      shrink_fuel hgt avail minS n s =
        some (shrink_loop hgt avail minS s) := by
  intro n
  induction n with
  | zero =>
      intro s hs
      have hcond : ¬(hgt s > avail ∧ s > minS) := by
        rintro ⟨h1, h2⟩
        have h3 : (0 : ℚ) < s - minS := by linarith
        have h4 : (1 : ℤ) ≤ ⌈s - minS⌉ := Int.one_le_ceil_iff.mpr h3
        omega
      rw [shrink_fuel, if_neg hcond, shrink_loop, dif_neg hcond]
  | succ n ih =>
      intro s hs
      by_cases hcond : hgt s > avail ∧ s > minS
      · have h3 : (0 : ℚ) < s - minS := by linarith [hcond.2]
        have h4 : (1 : ℤ) ≤ ⌈s - minS⌉ := Int.one_le_ceil_iff.mpr h3
        have h5 : ⌈s - 1 - minS⌉ = ⌈s - minS⌉ - 1 := by
          rw [show s - 1 - minS = s - minS - 1 by ring]
          exact Int.ceil_sub_one _
        rw [shrink_fuel, if_pos hcond, shrink_loop, dif_pos hcond]
        exact ih (s - 1) (by omega)
      · rw [shrink_fuel, if_neg hcond, shrink_loop, dif_neg hcond]

/-- Helper: one point of grow fuel per point of distance below the
ceiling is always enough, and the bounded loop agrees with the
unbounded one. -/
theorem grow_fuel_spec (hgt : ℚ → ℚ) (avail maxS : ℚ) :
    ∀ (n : Nat) (s : ℚ), (⌈maxS - s⌉).toNat ≤ n →
      grow_fuel hgt avail maxS n s =
        some (grow_loop hgt avail maxS s) := by
  intro n
  induction n with
  | zero =>
      intro s hs
      have hcond : ¬(hgt s < avail ∧ s < maxS) := by
        rintro ⟨h1, h2⟩
        have h3 : (0 : ℚ) < maxS - s := by linarith
        have h4 : (1 : ℤ) ≤ ⌈maxS - s⌉ := Int.one_le_ceil_iff.mpr h3
        omega
      rw [grow_fuel, if_neg hcond, grow_loop, dif_neg hcond]
  | succ n ih =>
      intro s hs
      by_cases hcond : hgt s < avail ∧ s < maxS
      · rw [grow_fuel, if_pos hcond, grow_loop, dif_pos hcond]
        by_cases hover : hgt (s + 1) > avail
        · rw [if_pos hover, if_pos hover]
        · rw [if_neg hover, if_neg hover]
          have h3 : (0 : ℚ) < maxS - s := by linarith [hcond.2]
          have h4 : (1 : ℤ) ≤ ⌈maxS - s⌉ := Int.one_le_ceil_iff.mpr h3
          have h5 : ⌈maxS - (s + 1)⌉ = ⌈maxS - s⌉ - 1 := by
            rw [show maxS - (s + 1) = maxS - s - 1 by ring]
            exact Int.ceil_sub_one _
          exact ih (s + 1) (by omega)
      · rw [grow_fuel, if_neg hcond, grow_loop, dif_neg hcond]

/-- C4 counterexample: the initial size is not clamped to the bounds.
The Generation 2 caller's initial size for a 100-point-high box is
max(8, 100 * 0.8) = 80; with a one-line paragraph (wrapped height 1.2
times the size) and 100 points of available height, the text already
fits at size 80, so neither loop runs and the returned size is 80,
above the max_font_size of 72. -/
theorem c4_font_fit_bounds_counterexample :
    adjust_paragraph_font_size (fun s => 6 / 5 * s) 100 6 72
      (build_initial_font_size 100) = 80 ∧
    ¬((80 : ℚ) ≤ 72) := by
  have hinit : build_initial_font_size 100 = 80 := by
    rw [build_initial_font_size]
    norm_num
  constructor
  · rw [adjust_paragraph_font_size, hinit, shrink_loop,
      dif_neg (by norm_num), grow_loop, dif_neg (by norm_num)]
  · norm_num

/-- C4 (amended): the returned size respects the caller's bounds up to
the fractional part of the initial size: it stays strictly above
min_font_size - 1 and strictly below max_font_size + 1 whenever the
initial size does, and when the initial size moreover sits at an
integer distance from a bound it respects that bound exactly.  The
claim as stated fails because an initial size already outside the
bounds (such as the caller's max(8, box_height * 0.8) above the
ceiling) can be returned unchanged. -/
theorem c4_font_fit_bounds_up_to_fraction :
    (∀ (hgt : ℚ → ℚ) (avail minS maxS s : ℚ), minS - 1 < s →
      minS - 1 < adjust_paragraph_font_size hgt avail minS maxS s) ∧
    (∀ (hgt : ℚ → ℚ) (avail minS maxS s : ℚ), s < maxS + 1 →
      adjust_paragraph_font_size hgt avail minS maxS s < maxS + 1) ∧
    (∀ (hgt : ℚ → ℚ) (avail minS maxS s : ℚ), minS ≤ s →
      (∃ k : ℤ, s - minS = k) →
      minS ≤ adjust_paragraph_font_size hgt avail minS maxS s) ∧
    (∀ (hgt : ℚ → ℚ) (avail minS maxS s : ℚ), s ≤ maxS →
      (∃ k : ℤ, maxS - s = k) →
      adjust_paragraph_font_size hgt avail minS maxS s ≤ maxS) := by
  refine ⟨?_, ?_, ?_, ?_⟩
  · intro hgt avail minS maxS s hs
    rw [adjust_paragraph_font_size]
    calc minS - 1 < shrink_loop hgt avail minS s :=
        shrink_loop_gt_floor_sub_one hgt avail minS s hs
      _ ≤ grow_loop hgt avail maxS (shrink_loop hgt avail minS s) :=
        grow_loop_ge hgt avail maxS _
  · intro hgt avail minS maxS s hs
    rw [adjust_paragraph_font_size]
    refine grow_loop_lt_ceiling_add_one hgt avail maxS _ ?_
    calc shrink_loop hgt avail minS s ≤ s := shrink_loop_le hgt avail minS s
      _ < maxS + 1 := hs
  · intro hgt avail minS maxS s hs hk
    rw [adjust_paragraph_font_size]
    calc minS ≤ shrink_loop hgt avail minS s :=
        shrink_loop_ge_floor hgt avail minS s hs hk
      _ ≤ grow_loop hgt avail maxS (shrink_loop hgt avail minS s) :=
        grow_loop_ge hgt avail maxS _
  · intro hgt avail minS maxS s hs hk
    rw [adjust_paragraph_font_size]
    obtain ⟨k, hkk⟩ := hk
    obtain ⟨m, hm⟩ := shrink_loop_steps_nat hgt avail minS s
    refine grow_loop_le_ceiling hgt avail maxS _ ?_ ⟨k + m, ?_⟩
    · calc shrink_loop hgt avail minS s ≤ s := shrink_loop_le hgt avail minS s
        _ ≤ maxS := hs
    · push_cast
      linarith [hkk, hm]

/-- C4 amended witness: integer bounds 6 and 72 with integer initial
size 10 (distances 4 and 62 from the bounds) keep the result inside
[6, 72]. -/
theorem c4_font_fit_bounds_up_to_fraction_witness :
    6 ≤ adjust_paragraph_font_size (fun s => 6 / 5 * s) 20 6 72 10 ∧
    adjust_paragraph_font_size (fun s => 6 / 5 * s) 20 6 72 10 ≤ 72 :=
  ⟨c4_font_fit_bounds_up_to_fraction.2.2.1 (fun s => 6 / 5 * s) 20 6 72 10
      (by norm_num) ⟨4, by norm_num⟩,
   c4_font_fit_bounds_up_to_fraction.2.2.2 (fun s => 6 / 5 * s) 20 6 72 10
      (by norm_num) ⟨62, by norm_num⟩⟩

/-- C8: both loops of adjust_paragraph_font_size terminate, stepping by
exactly one point per iteration, within an iteration budget given by the
distance from the starting size to the bound the loop moves toward:
running each loop with that much fuel never exhausts the fuel and
returns the loop's unbounded result, and the full fitting function is
the composition of the two loops. -/
theorem c8_font_fit_termination_with_distance_bound :
    (∀ (hgt : ℚ → ℚ) (avail minS s : ℚ),
      shrink_fuel hgt avail minS ((⌈s - minS⌉).toNat) s =
        some (shrink_loop hgt avail minS s)) ∧
    (∀ (hgt : ℚ → ℚ) (avail maxS s : ℚ),
      grow_fuel hgt avail maxS ((⌈maxS - s⌉).toNat) s =
        some (grow_loop hgt avail maxS s)) ∧
    (∀ (hgt : ℚ → ℚ) (avail minS maxS s : ℚ),
      adjust_paragraph_font_size hgt avail minS maxS s =
        grow_loop hgt avail maxS (shrink_loop hgt avail minS s)) :=
  ⟨fun hgt avail minS s => shrink_fuel_spec hgt avail minS _ s le_rfl,
   fun hgt avail maxS s => grow_fuel_spec hgt avail maxS _ s le_rfl,
   fun _ _ _ _ _ => rfl⟩

/-- Helper: the metric fold of validate_translation_quality accumulates
three per-predicate counts: empty translations, identical pairs, and the
suspicious list that receives one entry for each empty pair, each
identical pair, and each out-of-ratio pair. -/
theorem quality_foldl_counts (pairs : List (String × String)) :
    ∀ acc : Nat × Nat × Nat,
      pairs.foldl
        (fun (m : Nat × Nat × Nat) p =>
          let pm := pair_metrics p.1 p.2
          (m.1 + pm.1, m.2.1 + pm.2.1, m.2.2 + pm.2.2)) acc =
      (acc.1 + pairs.countP (fun p => decide (py_strip p.2 = "")),
       acc.2.1 + pairs.countP (fun p =>
         decide (py_strip p.2 ≠ "" ∧ py_strip p.1 = py_strip p.2)),
       acc.2.2 + pairs.countP (fun p => decide (py_strip p.2 = "")) +
         pairs.countP (fun p =>
           decide (py_strip p.2 ≠ "" ∧ py_strip p.1 = py_strip p.2)) +
         pairs.countP (fun p => decide (0 < p.1.length ∧
           ((p.2.length : ℚ) / (p.1.length : ℚ) < 3 / 10 ∨
            (p.2.length : ℚ) / (p.1.length : ℚ) > 3)))) := by
  induction pairs with
  | nil => intro acc; simp
  | cons q t ih =>
      intro acc
      rw [List.foldl_cons, ih]
      simp only [List.countP_cons, pair_metrics]
      by_cases h1 : py_strip q.2 = "" <;>
        by_cases h2 : py_strip q.1 = py_strip q.2 <;>
        by_cases h3 : 0 < q.1.length ∧
          ((q.2.length : ℚ) / (q.1.length : ℚ) < 3 / 10 ∨
           (q.2.length : ℚ) / (q.1.length : ℚ) > 3) <;>
        refine Prod.ext ?_ (Prod.ext ?_ ?_) <;>
        simp [h1, h2, h3] <;>
        omega

/-- C7 counterexample: a pair flagged as identical is charged twice (in
identical_translations and in the suspicious list), so with one
identical pair out of two the code's score is max(0, 1 - 2/2) = 0 while
the claimed formula, charging one issue per flagged pair, yields
max(0, 1 - 1/2) = 1/2. -/
theorem c7_quality_score_counterexample :
    ∃ m, validate_translation_quality ["a", "b"] ["a", "z"] = .ok m ∧
      m.quality_score = 0 ∧
      spec_quality_score ["a", "b"] ["a", "z"] = 1 / 2 ∧
      ((0 : ℚ) ≠ 1 / 2) := by
  have hsa : py_strip "a" = "a" := rfl
  have hsb : py_strip "b" = "b" := rfl
  have hsz : py_strip "z" = "z" := rfl
  have hla : ("a" : String).length = 1 := rfl
  have hlb : ("b" : String).length = 1 := rfl
  have hlz : ("z" : String).length = 1 := rfl
  have hp1 : pair_metrics "a" "a" = (0, 1, 1) := by
    simp only [pair_metrics, hsa, hla]
    norm_num
    all_goals decide
  have hp2 : pair_metrics "b" "z" = (0, 0, 0) := by
    simp only [pair_metrics, hsb, hsz, hlb, hlz]
    norm_num
    all_goals decide
  refine ⟨⟨2, 0, 1, 1, 0⟩, ?_, rfl, ?_, by norm_num⟩
  · rw [validate_translation_quality]
    rw [if_neg (by norm_num), if_neg (by norm_num)]
    simp only [List.zip, List.zipWith, List.foldl_cons, List.foldl_nil,
      hp1, hp2]
    norm_num
  · rw [spec_quality_score, spec_flagged_pairs]
    have hA : (fun (p : String × String) =>
        decide (py_strip p.2 = "" ∨ py_strip p.1 = py_strip p.2 ∨
          (0 < p.1.length ∧
            ((p.2.length : ℚ) / (p.1.length : ℚ) < 3 / 10 ∨
             (p.2.length : ℚ) / (p.1.length : ℚ) > 3)))) ("a", "a") =
        true := by
      simp [hsa]
    have hB : (fun (p : String × String) =>
        decide (py_strip p.2 = "" ∨ py_strip p.1 = py_strip p.2 ∨
          (0 < p.1.length ∧
            ((p.2.length : ℚ) / (p.1.length : ℚ) < 3 / 10 ∨
             (p.2.length : ℚ) / (p.1.length : ℚ) > 3)))) ("b", "z") =
        false := by
      simp only [decide_eq_false_iff_not, hsb, hsz, hlb, hlz]
      norm_num
      all_goals decide
    simp only [List.zip, List.zipWith, List.countP_cons, List.countP_nil,
      hA, hB]
    norm_num

/-- C7 (amended): for equal-length nonempty inputs the quality score is
max(0, 1 - issues/total) where issues double-charges flagged pairs:
each empty and each identical pair is counted once in its own counter
and once in the suspicious list, and each pair with nonempty original
and length ratio outside [0.3, 3.0] (including empty or identical
pairs) adds one further suspicious entry, so
issues = 2*empty + 2*identical + ratio-flagged.  The score still lies in
[0, 1].  Two empty input lists produce an error result
(ZeroDivisionError in the score computation), not a score. -/
theorem c7_quality_score_formula
    (original_texts translated_texts : List String)
    (hlen : original_texts.length = translated_texts.length)
    (hne : original_texts ≠ []) :
    ∃ m, validate_translation_quality original_texts translated_texts =
        .ok m ∧
      m.total_pairs = original_texts.length ∧
      m.empty_translations = (original_texts.zip translated_texts).countP
        (fun p => decide (py_strip p.2 = "")) ∧
      m.identical_translations = (original_texts.zip translated_texts).countP
        (fun p => decide (py_strip p.2 ≠ "" ∧ py_strip p.1 = py_strip p.2)) ∧
      m.suspicious_count =
        (original_texts.zip translated_texts).countP
          (fun p => decide (py_strip p.2 = "")) +
        (original_texts.zip translated_texts).countP
          (fun p => decide (py_strip p.2 ≠ "" ∧ py_strip p.1 = py_strip p.2)) +
        (original_texts.zip translated_texts).countP
          (fun p => decide (0 < p.1.length ∧
            ((p.2.length : ℚ) / (p.1.length : ℚ) < 3 / 10 ∨
             (p.2.length : ℚ) / (p.1.length : ℚ) > 3))) ∧
      m.quality_score = max 0 (1 -
        ((2 * (original_texts.zip translated_texts).countP
            (fun p => decide (py_strip p.2 = "")) +
          2 * (original_texts.zip translated_texts).countP
            (fun p => decide (py_strip p.2 ≠ "" ∧
              py_strip p.1 = py_strip p.2)) +
          (original_texts.zip translated_texts).countP
            (fun p => decide (0 < p.1.length ∧
              ((p.2.length : ℚ) / (p.1.length : ℚ) < 3 / 10 ∨
               (p.2.length : ℚ) / (p.1.length : ℚ) > 3))) : Nat) : ℚ) /
          (original_texts.length : ℚ)) ∧
      0 ≤ m.quality_score ∧ m.quality_score ≤ 1 := by
  have hc1 : ¬(original_texts.length ≠ translated_texts.length) := by omega
  have hc2 : ¬(original_texts.length = 0) := fun h0 =>
    hne (List.length_eq_zero.mp h0)
  simp only [validate_translation_quality]
  rw [if_neg hc1, if_neg hc2, quality_foldl_counts]
  refine ⟨_, rfl, rfl, by simp, by simp, by simp, ?_, ?_, ?_⟩
  · have hnum : ∀ E I R : ℕ,
        ((0 + E) + (0 + I) + (0 + E + I + R) : ℕ) = 2 * E + 2 * I + R := by
      omega
    rw [hnum]
  · exact le_max_left 0 _
  · exact max_le (by norm_num) (sub_le_self 1 (by positivity))

/-- C7 amended witness: one clean pair yields a successful result with
score 1 inside the bounds. -/
theorem c7_quality_score_formula_witness :
    ∃ m, validate_translation_quality ["ab"] ["xyz"] = .ok m ∧
      m.total_pairs = (["ab"] : List String).length ∧
      m.empty_translations = ((["ab"] : List String).zip ["xyz"]).countP
        (fun p => decide (py_strip p.2 = "")) ∧
      m.identical_translations = ((["ab"] : List String).zip ["xyz"]).countP
        (fun p => decide (py_strip p.2 ≠ "" ∧ py_strip p.1 = py_strip p.2)) ∧
      m.suspicious_count =
        ((["ab"] : List String).zip ["xyz"]).countP
          (fun p => decide (py_strip p.2 = "")) +
        ((["ab"] : List String).zip ["xyz"]).countP
          (fun p => decide (py_strip p.2 ≠ "" ∧ py_strip p.1 = py_strip p.2)) +
        ((["ab"] : List String).zip ["xyz"]).countP
          (fun p => decide (0 < p.1.length ∧
            ((p.2.length : ℚ) / (p.1.length : ℚ) < 3 / 10 ∨
             (p.2.length : ℚ) / (p.1.length : ℚ) > 3))) ∧
      m.quality_score = max 0 (1 -
        ((2 * ((["ab"] : List String).zip ["xyz"]).countP
            (fun p => decide (py_strip p.2 = "")) +
          2 * ((["ab"] : List String).zip ["xyz"]).countP
            (fun p => decide (py_strip p.2 ≠ "" ∧
              py_strip p.1 = py_strip p.2)) +
          ((["ab"] : List String).zip ["xyz"]).countP
            (fun p => decide (0 < p.1.length ∧
              ((p.2.length : ℚ) / (p.1.length : ℚ) < 3 / 10 ∨
               (p.2.length : ℚ) / (p.1.length : ℚ) > 3))) : Nat) : ℚ) /
          ((["ab"] : List String).length : ℚ)) ∧
      0 ≤ m.quality_score ∧ m.quality_score ≤ 1 :=
  c7_quality_score_formula ["ab"] ["xyz"] rfl (by simp)

end PdfTranslate
